import Mathlib

/-!
Verification of the `ratelimiter` package (token-bucket rate limiter).

The Go source keeps one struct, `RateLimiter`, whose bucket is a buffered
channel of capacity `Quota`.  Three activities share the bucket: callers
consuming permits (`Throttle`, or direct receives on the channel returned by
`GetThrottleChannel`), the refill goroutine (`makeTokens`, one send then a
`Rate`-long sleep, forever), and the window-reset goroutine (sleep `Window`,
then `reset`, forever).

We embed the code in two layers:

* an untimed state machine over `RState` (a record mirroring the Go struct,
  plus two flags recording which background goroutines have been launched),
  with one executable step function per operation; sequences of operations
  are folded over the state, a disabled step (a blocked channel operation)
  leaving the state unchanged;
* a timed trace model for the windowed-quota property: a trace is a list of
  timestamped completed events (a permit granted, a refill send completed, a
  window reset), and `validB` checks the channel discipline (a grant needs a
  nonempty bucket, a send needs a non-full one, sends of the refill loop are
  at least `Rate` apart because the loop sleeps `Rate` after every send).

Durations and timestamps are modelled as integers (Go `time.Duration` and
`time.Time` are nanosecond counts); bucket occupancy is a natural number
(the length of the channel buffer).  `make(chan _, n)` panics in Go for a
negative capacity, so theorems touching `setup` restrict to a nonnegative
`Quota`, the domain on which the code runs at all.
-/

namespace Ratelimiter

/-- Mirror of the Go struct `RateLimiter`.  `Tokens = none` models the nil
channel of a limiter whose lazy setup has not run; `Tokens = some n` models
an allocated bucket currently holding `n` permits.  `refillRunning` and
`resetRunning` record whether `setup` has launched the `makeTokens`
goroutine and the window-reset goroutine. -/
structure RState where
  Quota : Int
  Rate : Int
  Window : Int
  Tokens : Option Nat
  TokensUsed : Int
  RateLimitStart : Int
  Name : String
  refillRunning : Bool
  resetRunning : Bool
deriving DecidableEq, Repr

/-- `NewRateLimiter` from the source: records the arguments, derives
`Window = quota * rate`, performs no validation and allocates nothing. -/
def NewRateLimiter (quota : Int) (rate : Int) (name : String) : RState :=
  { Quota := quota, Rate := rate, Window := quota * rate, Tokens := none,
    TokensUsed := 0, RateLimitStart := 0, Name := name,
    refillRunning := false, resetRunning := false }

/-- `setup` from the source: if the channel is nil, allocate the bucket
(empty, capacity `Quota`), set `RateLimitStart` to the current time, launch
the refill goroutine, and launch the reset goroutine when `Window ≠ 0`;
otherwise do nothing. -/
def setup (r : RState) (now : Int) : RState :=
  if r.Tokens = none then
    { r with Tokens := some 0, RateLimitStart := now,
             refillRunning := true, resetRunning := decide (r.Window ≠ 0) }
  else r

/-- `useToken` from the source: a receive on the bucket channel.  It
completes only when a permit is present (`none` models a blocked receive,
including the receive on a nil channel, which never completes). -/
def useToken (r : RState) : Option RState :=
  match r.Tokens with
  | some (Nat.succ n) => some { r with Tokens := some n }
  | _ => none

/-- `Throttle` from the source: lazy setup, then a blocking receive of one
permit, then `TokensUsed++` (the log call is diagnostic only and carries no
state). -/
def Throttle (r : RState) (now : Int) : Option RState :=
  (useToken (setup r now)).map fun r2 =>
    { r2 with TokensUsed := r2.TokensUsed + 1 }

/-- `GetThrottleChannel` from the source: lazy setup, then return the bucket
channel itself.  The state effect is exactly `setup`; the returned handle is
the shared bucket, so a caller receiving on it performs `useToken`. -/
def GetThrottleChannel (r : RState) (now : Int) : RState :=
  setup r now

/-- One iteration of the `makeTokens` goroutine's send: it completes only
when the goroutine has been launched and the buffer is below the capacity
`Quota` (a send on a full channel blocks until a receive frees a slot, and
then completes as a later step). -/
def refillStep (r : RState) : Option RState :=
  if r.refillRunning then
    match r.Tokens with
    | some n => if (n : Int) < r.Quota then some { r with Tokens := some (n + 1) } else none
    | none => none
  else none

/-- The drain loop of `reset`, by recursion on the current occupancy: while
a permit is present the `select` takes it; on an empty bucket the `default`
branch fires at once, setting `RateLimitStart` and `TokensUsed` and
returning without waiting for a permit to arrive. -/
def drainLoop (r : RState) (now : Int) : Nat → RState
  | 0 => { r with RateLimitStart := now, TokensUsed := 0 }
  | Nat.succ n => drainLoop { r with Tokens := some n } now n

/-- `reset` from the source: drain whatever the bucket holds, then stamp the
new window.  On a nil channel the `select` receive is never ready, so the
`default` branch fires immediately. -/
def reset (r : RState) (now : Int) : RState :=
  match r.Tokens with
  | none => { r with RateLimitStart := now, TokensUsed := 0 }
  | some n => drainLoop r now n

/-- One firing of the window-reset goroutine: enabled only when `setup`
launched it (`Window ≠ 0` at setup time). -/
def resetStep (r : RState) (now : Int) : Option RState :=
  if r.resetRunning then some (reset r now) else none

/-- `TokensLeft` from the source: lazy setup, then `len(r.Tokens)` — the
current occupancy — returned together with the (otherwise untouched)
state. -/
def TokensLeft (r : RState) (now : Int) : Nat × RState :=
  let r1 := setup r now
  ((r1.Tokens.getD 0 : Nat), r1)

/-- The operations that can act on a limiter: the public calls, one refill
send, one window reset firing, and a direct receive on the channel obtained
from `GetThrottleChannel`. -/
inductive Op where
  | setupOp (now : Int)
  | throttleOp (now : Int)
  | refillOp
  | resetOp (now : Int)
  | tokensLeftOp (now : Int)
  | getChannelOp (now : Int)
  | takeOp
deriving DecidableEq, Repr

/-- The step function: `none` means the operation is currently blocked and
does not complete. -/
def stepOp (r : RState) : Op → Option RState
  | .setupOp now => some (setup r now)
  | .throttleOp now => Throttle r now
  | .refillOp => refillStep r
  | .resetOp now => resetStep r now
  | .tokensLeftOp now => some (TokensLeft r now).2
  | .getChannelOp now => some (GetThrottleChannel r now)
  | .takeOp => useToken r

/-- Run one operation; a blocked operation leaves the state unchanged. -/
def runOp (r : RState) (op : Op) : RState :=
  (stepOp r op).getD r

/-- Run a sequence of operations. -/
def runOps (r : RState) (ops : List Op) : RState :=
  ops.foldl runOp r

/-! ## Timed trace model

For the windowed-quota claim the ordering of completed channel operations in
real time matters.  A trace is a list of `(timestamp, event)` pairs in
chronological order.  The events are the three ways the bucket changes:

* `grant` — a consumer's receive completes (a `Throttle` caller, or a direct
  receive on the channel from `GetThrottleChannel`);
* `refill` — a send of the `makeTokens` loop completes.  The loop sleeps
  `Rate` after every send (and a send blocked on a full buffer completes
  even later), so two consecutive completed sends are at least `Rate` apart;
* `reset` — a firing of the window-reset goroutine; `reset` drains the
  bucket to empty before returning.
-/

/-- A completed bucket event of the timed model. -/
inductive Ev where
  | grant
  | refill
  | reset
deriving DecidableEq, Repr

/-- Effect of one event on the occupancy of a bucket of capacity `quota`:
a receive needs a permit, a send needs a free slot, a reset drains to 0. -/
def applyEv (quota : Nat) (occ : Nat) : Ev → Option Nat
  | .grant => if 0 < occ then some (occ - 1) else none
  | .refill => if occ < quota then some (occ + 1) else none
  | .reset => some 0

/-- Refill spacing check: a completed send at time `t` must come at least
`rate` after the previous completed send (`lr`), because `makeTokens`
sleeps `rate` between them. -/
def gapOK (rate : Nat) (lr : Option Nat) (t : Nat) : Bool :=
  match lr with
  | none => true
  | some t0 => decide (t0 + rate ≤ t)

/-- Timestamp of the most recent completed refill after the event at `t`. -/
def nextLR (lr : Option Nat) (t : Nat) (e : Ev) : Option Nat :=
  match e with
  | .refill => some t
  | _ => lr

/-- Trace validity from a configuration (`occ` = occupancy, `lr` = time of
the last completed refill, `clk` = current time): timestamps are
non-decreasing, every event's channel operation is enabled, and refills
respect the `rate` spacing. -/
def validB (quota rate : Nat) : Nat → Option Nat → Nat → List (Nat × Ev) → Bool
  | _, _, _, [] => true
  | occ, lr, clk, (t, e) :: rest =>
    decide (clk ≤ t) &&
    (match e with
     | .refill => gapOK rate lr t
     | _ => true) &&
    (match applyEv quota occ e with
     | none => false
     | some occ' => validB quota rate occ' (nextLR lr t e) t rest)

/-- Number of permits granted in a trace. -/
def countGrants (tr : List (Nat × Ev)) : Nat :=
  tr.countP fun p => p.2 == Ev.grant

/-- Number of completed refills in a trace. -/
def countRefills (tr : List (Nat × Ev)) : Nat :=
  tr.countP fun p => p.2 == Ev.refill

/-- Number of completed refills strictly before time `B`. -/
def countRefillsBefore (B : Nat) (tr : List (Nat × Ev)) : Nat :=
  tr.countP fun p => p.2 == Ev.refill && decide (p.1 < B)

/-- Earliest time at which the next refill may complete: the current time,
but no sooner than `rate` after the last completed refill. -/
def lbOf (rate : Nat) (lr : Option Nat) (clk : Nat) : Nat :=
  match lr with
  | none => clk
  | some t0 => max clk (t0 + rate)

/-- Permit conservation: every granted permit was either in the bucket at
the start of the trace or delivered by a refill during it (resets only
remove permits). -/
theorem countGrants_le (quota rate : Nat) (tr : List (Nat × Ev)) :
    ∀ (occ : Nat) (lr : Option Nat) (clk : Nat),
      validB quota rate occ lr clk tr = true →
      countGrants tr ≤ occ + countRefills tr := by
  induction tr with
  | nil =>
    intro occ lr clk _
    simp [countGrants, countRefills]
  | cons p rest ih =>
    obtain ⟨t, e⟩ := p
    intro occ lr clk h
    simp only [validB, Bool.and_eq_true, decide_eq_true_eq] at h
    obtain ⟨⟨hclk, hgap⟩, happ⟩ := h
    cases e with
    | grant =>
      simp only [applyEv] at happ
      by_cases hocc : 0 < occ
      · rw [if_pos hocc] at happ
        have hrec := ih (occ - 1) (nextLR lr t .grant) t happ
        simp [countGrants, countRefills, List.countP_cons] at hrec ⊢
        omega
      · rw [if_neg hocc] at happ
        exact absurd happ (by simp)
    | refill =>
      simp only [applyEv] at happ
      by_cases hfull : occ < quota
      · rw [if_pos hfull] at happ
        have hrec := ih (occ + 1) (nextLR lr t .refill) t happ
        simp [countGrants, countRefills, List.countP_cons] at hrec ⊢
        omega
      · rw [if_neg hfull] at happ
        exact absurd happ (by simp)
    | reset =>
      simp only [applyEv] at happ
      have hrec := ih 0 (nextLR lr t .reset) t happ
      simp [countGrants, countRefills, List.countP_cons] at hrec ⊢
      omega

/-- Every event of a valid trace happens no earlier than the starting
clock. -/
theorem validB_times_ge (quota rate : Nat) (tr : List (Nat × Ev)) :
    ∀ (occ : Nat) (lr : Option Nat) (clk : Nat),
      validB quota rate occ lr clk tr = true →
      ∀ p ∈ tr, clk ≤ p.1 := by
  induction tr with
  | nil => intro occ lr clk _ p hp; exact absurd hp (by simp)
  | cons q rest ih =>
    obtain ⟨t, e⟩ := q
    intro occ lr clk h p hp
    simp only [validB, Bool.and_eq_true, decide_eq_true_eq] at h
    obtain ⟨⟨hclk, _⟩, happ⟩ := h
    rcases List.mem_cons.mp hp with hp | hp
    · rw [hp]; exact hclk
    · cases happ' : applyEv quota occ e with
      | none => rw [happ'] at happ; exact absurd happ (by simp)
      | some occ' =>
        rw [happ'] at happ
        exact le_trans hclk (ih occ' (nextLR lr t e) t happ p hp)

/-- Refill pacing: starting from a configuration whose next refill cannot
complete before `lbOf rate lr clk`, at most `k` refills complete before any
time `B ≤ lbOf rate lr clk + k * rate`, because consecutive completed
refills are at least `rate` apart. -/
theorem countRefillsBefore_le (quota rate : Nat) (tr : List (Nat × Ev)) :
    ∀ (occ : Nat) (lr : Option Nat) (clk : Nat) (B k : Nat),
      validB quota rate occ lr clk tr = true →
      B ≤ lbOf rate lr clk + k * rate →
      countRefillsBefore B tr ≤ k := by
  induction tr with
  | nil =>
    intro occ lr clk B k _ _
    simp [countRefillsBefore]
  | cons p rest ih =>
    obtain ⟨t, e⟩ := p
    intro occ lr clk B k h hB
    simp only [validB, Bool.and_eq_true, decide_eq_true_eq] at h
    obtain ⟨⟨hclk, hgap⟩, happ⟩ := h
    have hlb_mono : lbOf rate lr clk ≤ lbOf rate lr t := by
      cases lr with
      | none => exact hclk
      | some t0 => simp only [lbOf]; omega
    cases e with
    | refill =>
      have hlbt : lbOf rate lr clk ≤ t := by
        cases lr with
        | none => exact hclk
        | some t0 =>
          simp only [gapOK, decide_eq_true_eq] at hgap
          simp only [lbOf]; omega
      simp only [applyEv] at happ
      by_cases hfull : occ < quota
      · rw [if_pos hfull] at happ
        simp only [countRefillsBefore, List.countP_cons, beq_self_eq_true, Bool.true_and,
          decide_eq_true_eq]
        by_cases htB : t < B
        · have hk : 1 ≤ k := by
            by_contra hk0
            have : k = 0 := by omega
            subst this
            omega
          have hrec := ih (occ + 1) (nextLR lr t .refill) t B (k - 1) happ (by
            simp only [nextLR, lbOf]
            have : max t (t + rate) = t + rate := by omega
            rw [this]
            have : t + rate + (k - 1) * rate = t + k * rate := by
              have := Nat.succ_pred_eq_of_pos hk
              nlinarith [Nat.sub_add_cancel hk]
            omega)
          simp only [countRefillsBefore] at hrec
          rw [if_pos htB]
          omega
        · have hrec := ih (occ + 1) (nextLR lr t .refill) t B k happ (by
            simp only [nextLR, lbOf]
            omega)
          simp only [countRefillsBefore] at hrec
          rw [if_neg htB]
          omega
      · rw [if_neg hfull] at happ
        exact absurd happ (by simp)
    | grant =>
      simp only [applyEv] at happ
      by_cases hocc : 0 < occ
      · rw [if_pos hocc] at happ
        have hrec := ih (occ - 1) (nextLR lr t .grant) t B k happ (by
          simp only [nextLR]; omega)
        simp only [countRefillsBefore, List.countP_cons] at hrec ⊢
        simpa using hrec
      · rw [if_neg hocc] at happ
        exact absurd happ (by simp)
    | reset =>
      simp only [applyEv] at happ
      have hrec := ih 0 (nextLR lr t .reset) t B k happ (by
        simp only [nextLR]; omega)
      simp only [countRefillsBefore, List.countP_cons] at hrec ⊢
      simpa using hrec

/-- When every event of a trace is before `B`, the refills before `B` are
all of them. -/
theorem countRefillsBefore_eq (B : Nat) (tr : List (Nat × Ev))
    (h : ∀ p ∈ tr, p.1 < B) :
    countRefillsBefore B tr = countRefills tr := by
  induction tr with
  | nil => simp [countRefillsBefore, countRefills]
  | cons p rest ih =>
    simp only [countRefillsBefore, countRefills, List.countP_cons] at ih ⊢
    have hp := h p (by simp)
    have hrest : ∀ q ∈ rest, q.1 < B := fun q hq => h q (by simp [hq])
    rw [ih hrest]
    simp [hp]

/-! ## Basic facts about the untimed operations -/

/-- On an already-initialized limiter, `setup` is the identity. -/
theorem setup_of_some (r : RState) (now : Int) (n : Nat) (h : r.Tokens = some n) :
    setup r now = r := by
  simp [setup, h]

/-- The drain loop, run with fuel equal to the current occupancy, removes
every permit and performs the window-restart assignments exactly when the
bucket is empty. -/
theorem drainLoop_eq (now : Int) :
    ∀ (n : Nat) (r : RState), r.Tokens = some n →
      drainLoop r now n =
        { r with Tokens := some 0, TokensUsed := 0, RateLimitStart := now } := by
  intro n
  induction n with
  | zero =>
    intro r h
    cases r
    simp only [drainLoop]
    simp_all
  | succ n ih =>
    intro r h
    simp only [drainLoop]
    rw [ih { r with Tokens := some n } rfl]

/-- `reset` on an initialized limiter: the bucket ends empty, the usage
counter is zeroed, the window start is stamped with the current time, and
nothing else changes. -/
theorem reset_eq (r : RState) (now : Int) (n : Nat) (h : r.Tokens = some n) :
    reset r now = { r with Tokens := some 0, TokensUsed := 0, RateLimitStart := now } := by
  simp only [reset, h]
  exact drainLoop_eq now n r h

/-- A receive completes on a nonempty bucket, removing one permit. -/
theorem useToken_succ (r : RState) (n : Nat) (h : r.Tokens = some (n + 1)) :
    useToken r = some { r with Tokens := some n } := by
  simp [useToken, h]

/-- A receive on an empty bucket blocks. -/
theorem useToken_zero (r : RState) (h : r.Tokens = some 0) :
    useToken r = none := by
  simp [useToken, h]

/-- A receive on a nil channel blocks forever. -/
theorem useToken_nil (r : RState) (h : r.Tokens = none) :
    useToken r = none := by
  simp [useToken, h]

/-- A refill send completes on a running scheduler with a free slot. -/
theorem refillStep_lt (r : RState) (n : Nat) (hr : r.refillRunning = true)
    (h : r.Tokens = some n) (hlt : (n : Int) < r.Quota) :
    refillStep r = some { r with Tokens := some (n + 1) } := by
  simp [refillStep, hr, h, hlt]

/-- A refill send on a full bucket blocks. -/
theorem refillStep_full (r : RState) (n : Nat) (h : r.Tokens = some n)
    (hge : ¬ (n : Int) < r.Quota) :
    refillStep r = none := by
  simp [refillStep, h, hge]

/-- No refill completes before the scheduler is launched. -/
theorem refillStep_off (r : RState) (hr : r.refillRunning = false) :
    refillStep r = none := by
  simp [refillStep, hr]

/-- The bucket-occupancy bound `0 ≤ occ ≤ q` phrased over the `Option`
bucket (`occ` is a `Nat`, so only the upper bound carries content). -/
def occWithin (q : Int) (s : RState) : Prop :=
  ∀ n, s.Tokens = some n → (n : Int) ≤ q

/-- Every single operation preserves the quota field and the occupancy
bound. -/
theorem setup_quota_occ (q : Int) (hq : 0 ≤ q) (s : RState) (now : Int)
    (h1 : s.Quota = q) (h2 : occWithin q s) :
    (setup s now).Quota = q ∧ occWithin q (setup s now) := by
  by_cases h : s.Tokens = none
  · constructor
    · simpa [setup, h] using h1
    · intro n hn
      simp [setup, h] at hn
      omega
  · rw [setup, if_neg h]
    exact ⟨h1, h2⟩

theorem inv_runOp (q : Int) (hq : 0 ≤ q) (s : RState) (op : Op)
    (h1 : s.Quota = q) (h2 : occWithin q s) :
    (runOp s op).Quota = q ∧ occWithin q (runOp s op) := by
  cases op with
  | setupOp now =>
    simpa [runOp, stepOp] using setup_quota_occ q hq s now h1 h2
  | tokensLeftOp now =>
    simpa [runOp, stepOp, TokensLeft] using setup_quota_occ q hq s now h1 h2
  | getChannelOp now =>
    simpa [runOp, stepOp, GetThrottleChannel] using setup_quota_occ q hq s now h1 h2
  | throttleOp now =>
    cases htok : s.Tokens with
    | none =>
      have hthr : Throttle s now = none := by
        rw [Throttle, setup]
        rw [if_pos htok, useToken_zero _ rfl]
        rfl
      simp only [runOp, stepOp, hthr, Option.getD_none]
      exact ⟨h1, h2⟩
    | some m =>
      have hs := setup_of_some s now m htok
      cases m with
      | zero =>
        have hthr : Throttle s now = none := by
          rw [Throttle, hs, useToken_zero s htok]
          rfl
        simp only [runOp, stepOp, hthr, Option.getD_none]
        exact ⟨h1, h2⟩
      | succ k =>
        have hthr : Throttle s now =
            some { s with Tokens := some k, TokensUsed := s.TokensUsed + 1 } := by
          rw [Throttle, hs, useToken_succ s k htok]
          rfl
        simp only [runOp, stepOp, hthr, Option.getD_some]
        refine ⟨h1, fun n hn => ?_⟩
        have hk := h2 (k + 1) htok
        simp at hn
        omega
  | refillOp =>
    by_cases hr : s.refillRunning = true
    · cases htok : s.Tokens with
      | none =>
        have hnone : refillStep s = none := by simp [refillStep, htok]
        simp only [runOp, stepOp, hnone, Option.getD_none]
        exact ⟨h1, h2⟩
      | some n =>
        by_cases hlt : (n : Int) < s.Quota
        · have hstep := refillStep_lt s n hr htok hlt
          simp only [runOp, stepOp, hstep, Option.getD_some]
          refine ⟨h1, fun m hm => ?_⟩
          simp at hm
          rw [h1] at hlt
          omega
        · have hstep := refillStep_full s n htok hlt
          simp only [runOp, stepOp, hstep, Option.getD_none]
          exact ⟨h1, h2⟩
    · have hr' : s.refillRunning = false := by simpa using hr
      have hstep := refillStep_off s hr'
      simp only [runOp, stepOp, hstep, Option.getD_none]
      exact ⟨h1, h2⟩
  | resetOp now =>
    by_cases hr : s.resetRunning = true
    · have hstep : stepOp s (.resetOp now) = some (reset s now) := by
        simp [stepOp, resetStep, hr]
      cases htok : s.Tokens with
      | none =>
        have hres : reset s now = { s with RateLimitStart := now, TokensUsed := 0 } := by
          simp [reset, htok]
        rw [runOp, hstep, hres]
        simp only [Option.getD_some]
        refine ⟨h1, fun n hn => ?_⟩
        simp at hn
        rw [htok] at hn
        exact absurd hn (by simp)
      | some n =>
        rw [runOp, hstep, reset_eq s now n htok]
        simp only [Option.getD_some]
        refine ⟨h1, fun m hm => ?_⟩
        simp at hm
        omega
    · have hr' : s.resetRunning = false := by simpa using hr
      have hstep : stepOp s (.resetOp now) = none := by
        simp [stepOp, resetStep, hr']
      simp only [runOp, hstep, Option.getD_none]
      exact ⟨h1, h2⟩
  | takeOp =>
    cases htok : s.Tokens with
    | none =>
      simp only [runOp, stepOp, useToken_nil s htok, Option.getD_none]
      exact ⟨h1, h2⟩
    | some m =>
      cases m with
      | zero =>
        simp only [runOp, stepOp, useToken_zero s htok, Option.getD_none]
        exact ⟨h1, h2⟩
      | succ k =>
        simp only [runOp, stepOp, useToken_succ s k htok, Option.getD_some]
        refine ⟨h1, fun n hn => ?_⟩
        have hk := h2 (k + 1) htok
        simp at hn
        omega

/-- The occupancy bound holds in every state reachable by a sequence of
operations. -/
theorem inv_runOps (q : Int) (hq : 0 ≤ q) (ops : List Op) :
    ∀ s : RState, s.Quota = q → occWithin q s →
      (runOps s ops).Quota = q ∧ occWithin q (runOps s ops) := by
  induction ops with
  | nil => intro s h1 h2; exact ⟨h1, h2⟩
  | cons op rest ih =>
    intro s h1 h2
    have hstep := inv_runOp q hq s op h1 h2
    exact ih (runOp s op) hstep.1 hstep.2

/-- Inversion of a completed receive. -/
theorem useToken_some (r r2 : RState) (h : useToken r = some r2) :
    ∃ n, r.Tokens = some (n + 1) ∧ r2 = { r with Tokens := some n } := by
  cases htok : r.Tokens with
  | none =>
    rw [useToken_nil r htok] at h
    exact absurd h (by simp)
  | some m =>
    cases m with
    | zero =>
      rw [useToken_zero r htok] at h
      exact absurd h (by simp)
    | succ k =>
      rw [useToken_succ r k htok] at h
      simp at h
      exact ⟨k, rfl, h.symm⟩

/-- Inversion of a completed refill send. -/
theorem refillStep_some (r r2 : RState) (h : refillStep r = some r2) :
    ∃ n, r.Tokens = some n ∧ (n : Int) < r.Quota ∧
      r2 = { r with Tokens := some (n + 1) } := by
  by_cases hr : r.refillRunning = true
  · cases htok : r.Tokens with
    | none =>
      rw [refillStep, hr] at h
      simp only [if_true] at h
      rw [htok] at h
      exact absurd h (by simp)
    | some n =>
      by_cases hlt : (n : Int) < r.Quota
      · rw [refillStep_lt r n hr htok hlt] at h
        simp at h
        exact ⟨n, rfl, hlt, h.symm⟩
      · rw [refillStep_full r n htok hlt] at h
        exact absurd h (by simp)
  · rw [refillStep_off r (by simpa using hr)] at h
    exact absurd h (by simp)

/-- `setup` never touches the usage counter. -/
theorem setup_tokensUsed (r : RState) (now : Int) :
    (setup r now).TokensUsed = r.TokensUsed := by
  by_cases h : r.Tokens = none <;> simp [setup, h]

/-- `reset` always zeroes the usage counter. -/
theorem reset_tokensUsed (r : RState) (now : Int) :
    (reset r now).TokensUsed = 0 := by
  cases htok : r.Tokens with
  | none => simp [reset, htok]
  | some n => rw [reset_eq r now n htok]

/-- Invariant of a limiter whose `Window` was 0 at setup time: the bucket is
allocated within capacity, the refill goroutine runs, and the window-reset
goroutine was never launched. -/
def windowOffInv (q : Int) (s : RState) : Prop :=
  s.Quota = q ∧ (∃ n, s.Tokens = some n ∧ (n : Int) ≤ q) ∧
  s.refillRunning = true ∧ s.resetRunning = false

theorem windowOffInv_runOp (q : Int) (s : RState) (op : Op)
    (h : windowOffInv q s) : windowOffInv q (runOp s op) := by
  obtain ⟨h1, ⟨m, hm, hmle⟩, h3, h4⟩ := h
  cases op with
  | setupOp now =>
    simp only [runOp, stepOp, Option.getD_some, setup_of_some s now m hm]
    exact ⟨h1, ⟨m, hm, hmle⟩, h3, h4⟩
  | tokensLeftOp now =>
    simp only [runOp, stepOp, TokensLeft, Option.getD_some, setup_of_some s now m hm]
    exact ⟨h1, ⟨m, hm, hmle⟩, h3, h4⟩
  | getChannelOp now =>
    simp only [runOp, stepOp, GetThrottleChannel, Option.getD_some, setup_of_some s now m hm]
    exact ⟨h1, ⟨m, hm, hmle⟩, h3, h4⟩
  | throttleOp now =>
    cases m with
    | zero =>
      have hthr : Throttle s now = none := by
        rw [Throttle, setup_of_some s now 0 hm, useToken_zero s hm]
        rfl
      simp only [runOp, stepOp, hthr, Option.getD_none]
      exact ⟨h1, ⟨0, hm, hmle⟩, h3, h4⟩
    | succ k =>
      have hthr : Throttle s now =
          some { s with Tokens := some k, TokensUsed := s.TokensUsed + 1 } := by
        rw [Throttle, setup_of_some s now (k + 1) hm, useToken_succ s k hm]
        rfl
      simp only [runOp, stepOp, hthr, Option.getD_some]
      exact ⟨h1, ⟨k, rfl, by push_cast at hmle ⊢; omega⟩, h3, h4⟩
  | refillOp =>
    by_cases hlt : (m : Int) < s.Quota
    · simp only [runOp, stepOp, refillStep_lt s m h3 hm hlt, Option.getD_some]
      refine ⟨h1, ⟨m + 1, rfl, ?_⟩, h3, h4⟩
      rw [h1] at hlt
      push_cast
      omega
    · simp only [runOp, stepOp, refillStep_full s m hm hlt, Option.getD_none]
      exact ⟨h1, ⟨m, hm, hmle⟩, h3, h4⟩
  | resetOp now =>
    have hstep : stepOp s (.resetOp now) = none := by
      simp [stepOp, resetStep, h4]
    simp only [runOp, hstep, Option.getD_none]
    exact ⟨h1, ⟨m, hm, hmle⟩, h3, h4⟩
  | takeOp =>
    cases m with
    | zero =>
      simp only [runOp, stepOp, useToken_zero s hm, Option.getD_none]
      exact ⟨h1, ⟨0, hm, hmle⟩, h3, h4⟩
    | succ k =>
      simp only [runOp, stepOp, useToken_succ s k hm, Option.getD_some]
      exact ⟨h1, ⟨k, rfl, by push_cast at hmle ⊢; omega⟩, h3, h4⟩

theorem windowOffInv_runOps (q : Int) (ops : List Op) :
    ∀ s : RState, windowOffInv q s → windowOffInv q (runOps s ops) := by
  induction ops with
  | nil => intro s h; exact h
  | cons op rest ih =>
    intro s h
    exact ih (runOp s op) (windowOffInv_runOp q s op h)

/-! ## Spec-modelled checked construction -/

/-- Modelled from the spec: the error-handling design requires construction
with a non-positive quota or rate to fail fast (reject at construction)
rather than return a limiter.  The source's `NewRateLimiter` is compared
against this checked constructor. -/
def NewRateLimiterChecked (quota rate : Int) (name : String) : Option RState :=
  if quota ≤ 0 ∨ rate ≤ 0 then none else some (NewRateLimiter quota rate name)

/-! ## Concrete states used to instantiate the claims -/

/-- An initialized limiter: quota 3, two permits in the bucket, one permit
already used this window, both goroutines running. -/
def sampleInit : RState :=
  { Quota := 3, Rate := 2, Window := 6, Tokens := some 2, TokensUsed := 1,
    RateLimitStart := 5, Name := "rl", refillRunning := true, resetRunning := true }

/-- A freshly constructed limiter. -/
def sampleFresh : RState := NewRateLimiter 2 3 "rl"

/-- A freshly constructed limiter whose derived window is 0. -/
def sampleW0 : RState := NewRateLimiter 2 0 "rl"

/-- The state of a fresh limiter right after its lazy setup ran. -/
def afterSetup (quota rate : Int) (name : String) (now : Int) : RState :=
  setup (NewRateLimiter quota rate name) now

theorem afterSetup_eq (quota rate : Int) (name : String) (now : Int) :
    afterSetup quota rate name now =
      { Quota := quota, Rate := rate, Window := quota * rate, Tokens := some 0,
        TokensUsed := 0, RateLimitStart := now, Name := name,
        refillRunning := true, resetRunning := decide (quota * rate ≠ 0) } := by
  simp [afterSetup, setup, NewRateLimiter]

/-- More permit consumptions than the quota, with no window reset in
between: initialize, then twice refill-and-throttle, on a quota-1 limiter. -/
def overQuotaOps : List Op :=
  [Op.setupOp 0, Op.refillOp, Op.throttleOp 0, Op.refillOp, Op.throttleOp 0]

/-! ## The claims -/

/-- C1: for a limiter with positive quota and rate, consider a window opened
by a firing of the window-reset goroutine at time `T` and the (valid, timed)
events that follow it before time `T + quota * rate`.  At most `quota`
permits are granted in that window, and the reset itself destroys every
permit still in the bucket (occupancy 0 immediately after it), carrying
nothing into the window. -/
theorem claim_C1_window_quota (quota rate occ T : Nat) (lr : Option Nat)
    (tr : List (Nat × Ev)) (hq : 0 < quota) (hr : 0 < rate)
    (hv : validB quota rate occ lr T ((T, Ev.reset) :: tr) = true)
    (hwin : ∀ p ∈ tr, p.1 < T + quota * rate) :
    countGrants tr ≤ quota ∧ applyEv quota occ Ev.reset = some 0 := by
  refine ⟨?_, rfl⟩
  have hv' : validB quota rate 0 lr T tr = true := by
    simp [validB, applyEv, nextLR] at hv
    exact hv
  have hcons := countGrants_le quota rate tr 0 lr T hv'
  have hlb : T ≤ lbOf rate lr T := by
    cases lr with
    | none => simp [lbOf]
    | some t0 => simp [lbOf]
  have hcnt := countRefillsBefore_le quota rate tr 0 lr T
    (T + quota * rate) quota hv' (by omega)
  rw [countRefillsBefore_eq _ _ hwin] at hcnt
  omega

/-- Witness for C1: a concrete post-reset window (quota 2, rate 3) holding
one refill and one grant. -/
theorem claim_C1_window_quota_witness :
    countGrants [(1, Ev.refill), (2, Ev.grant)] ≤ 2 ∧
    applyEv 2 1 Ev.reset = some 0 :=
  claim_C1_window_quota 2 3 1 0 none [(1, Ev.refill), (2, Ev.grant)]
    (by decide) (by decide) (by decide) (by decide)

/-- C2: starting from a limiter constructed with a positive quota, after any
sequence of operations the bucket occupancy stays between 0 and the
quota. -/
theorem claim_C2_capacity_bound (quota rate : Int) (name : String)
    (ops : List Op) (n : Nat) (hq : 0 < quota)
    (hn : (runOps (NewRateLimiter quota rate name) ops).Tokens = some n) :
    (0 : Int) ≤ (n : Int) ∧ (n : Int) ≤ quota := by
  have h := inv_runOps quota (le_of_lt hq) ops (NewRateLimiter quota rate name)
    rfl (by intro m hm; simp [NewRateLimiter] at hm)
  exact ⟨Int.natCast_nonneg n, h.2 n hn⟩

/-- Witness for C2: quota 2, one refill after setup leaves occupancy 1. -/
theorem claim_C2_capacity_bound_witness :
    (0 : Int) ≤ ((1 : Nat) : Int) ∧ ((1 : Nat) : Int) ≤ 2 :=
  claim_C2_capacity_bound 2 3 "rl" [Op.setupOp 0, Op.refillOp] 1
    (by decide) (by decide)

/-- C3 counterexample: with the non-positive quota 0 (and positive rate 5),
the source constructor does not reject — it returns a fully formed limiter
with a zero-capacity bucket configuration and a zero window — whereas the
fail-fast construction required by the spec rejects the same arguments. -/
theorem claim_C3_counterexample :
    NewRateLimiter 0 5 "rl" =
      { Quota := 0, Rate := 5, Window := 0, Tokens := none, TokensUsed := 0,
        RateLimitStart := 0, Name := "rl", refillRunning := false,
        resetRunning := false } ∧
    NewRateLimiterChecked 0 5 "rl" = none := by
  refine ⟨rfl, ?_⟩
  simp [NewRateLimiterChecked]

/-- C3 amended: `NewRateLimiter` performs no validation at all — for every
quota and rate, including non-positive ones, it returns a limiter recording
the arguments as given, with `Window = quota * rate`, a nil bucket and zero
counters; nothing is rejected at construction time. -/
theorem claim_C3_amended_no_validation (quota rate : Int) (name : String) :
    NewRateLimiter quota rate name =
      { Quota := quota, Rate := rate, Window := quota * rate, Tokens := none,
        TokensUsed := 0, RateLimitStart := 0, Name := name,
        refillRunning := false, resetRunning := false } := rfl

/-- C4: on an initialized limiter, `reset` drains the bucket to occupancy 0
and returns with `TokensUsed = 0` and `RateLimitStart = now`, touching
nothing else; and the drain loop, upon finding the bucket empty, performs
exactly those assignments and returns at once instead of waiting for a
permit to arrive. -/
theorem claim_C4_reset_drains (r r2 : RState) (now : Int) (n : Nat)
    (h : r.Tokens = some n) :
    reset r now =
      { r with Tokens := some 0, TokensUsed := 0, RateLimitStart := now } ∧
    drainLoop r2 now 0 = { r2 with RateLimitStart := now, TokensUsed := 0 } :=
  ⟨reset_eq r now n h, rfl⟩

/-- Witness for C4: the sample limiter holding two permits. -/
theorem claim_C4_reset_drains_witness :
    reset sampleInit 9 =
      { sampleInit with Tokens := some 0, TokensUsed := 0, RateLimitStart := 9 } ∧
    drainLoop sampleFresh 9 0 =
      { sampleFresh with RateLimitStart := 9, TokensUsed := 0 } :=
  claim_C4_reset_drains sampleInit sampleFresh 9 2 rfl

/-- C5: whenever at least one permit sits in the bucket, `Throttle`
completes: it removes exactly one permit, increments `TokensUsed` by one,
changes nothing else, and returns normally (there is no error outcome). -/
theorem claim_C5_throttle_consumes (r : RState) (now : Int) (n : Nat)
    (h : r.Tokens = some (n + 1)) :
    Throttle r now =
      some { r with Tokens := some n, TokensUsed := r.TokensUsed + 1 } := by
  rw [Throttle, setup_of_some r now (n + 1) h, useToken_succ r n h]
  rfl

/-- Witness for C5: the sample limiter holding two permits. -/
theorem claim_C5_throttle_consumes_witness :
    Throttle sampleInit 7 =
      some
        { sampleInit with
          Tokens := some 1
          TokensUsed := sampleInit.TokensUsed + 1 } :=
  claim_C5_throttle_consumes sampleInit 7 1 rfl

/-- C6: on a freshly constructed limiter the first `setup` allocates the
(empty) bucket, stamps the window start with the current time, launches the
refill goroutine, and launches the window-reset goroutine exactly when the
window is nonzero; and `setup` is idempotent — a second invocation on any
state leaves the state of the first invocation unchanged. -/
theorem claim_C6_setup_idempotent (quota rate : Int) (name : String)
    (now now2 : Int) (r : RState) (hq : 0 < quota) :
    (setup (NewRateLimiter quota rate name) now).Tokens = some 0 ∧
    (setup (NewRateLimiter quota rate name) now).RateLimitStart = now ∧
    (setup (NewRateLimiter quota rate name) now).refillRunning = true ∧
    (setup (NewRateLimiter quota rate name) now).resetRunning =
      decide (quota * rate ≠ 0) ∧
    setup (setup r now) now2 = setup r now := by
  refine ⟨rfl, rfl, rfl, rfl, ?_⟩
  by_cases h : r.Tokens = none
  · have h1 : setup r now =
        { r with
          Tokens := some 0
          RateLimitStart := now
          refillRunning := true
          resetRunning := decide (r.Window ≠ 0) } := by
      simp [setup, h]
    rw [h1, setup]
    simp
  · obtain ⟨m, hm⟩ := Option.ne_none_iff_exists'.mp h
    rw [setup_of_some r now m hm, setup_of_some r now2 m hm]

/-- Witness for C6: quota 2, rate 3, with the double-setup conjunct applied
to the sample fresh limiter. -/
theorem claim_C6_setup_idempotent_witness :
    (setup (NewRateLimiter 2 3 "rl") 5).Tokens = some 0 ∧
    setup (setup sampleFresh 5) 9 = setup sampleFresh 5 :=
  ⟨(claim_C6_setup_idempotent 2 3 "rl" 5 9 sampleFresh (by decide)).1,
   (claim_C6_setup_idempotent 2 3 "rl" 5 9 sampleFresh (by decide)).2.2.2.2⟩

/-- C7: on a fresh limiter whose window is 0, `setup` launches the refill
goroutine but not the window-reset goroutine; in every state reachable from
it the reset step is disabled (no periodic flush ever occurs), the refill
goroutine keeps running, and occupancy stays capped at the quota. -/
theorem claim_C7_window_zero (r : RState) (now t : Int) (ops : List Op)
    (n : Nat) (hw : r.Window = 0) (hfresh : r.Tokens = none)
    (hq : 0 ≤ r.Quota) :
    (setup r now).refillRunning = true ∧
    (setup r now).resetRunning = false ∧
    stepOp (runOps (setup r now) ops) (Op.resetOp t) = none ∧
    (runOps (setup r now) ops).refillRunning = true ∧
    ((runOps (setup r now) ops).Tokens = some n → (n : Int) ≤ r.Quota) := by
  have hsetup : setup r now =
      { r with
        Tokens := some 0
        RateLimitStart := now
        refillRunning := true
        resetRunning := decide (r.Window ≠ 0) } := by
    simp [setup, hfresh]
  have hinv0 : windowOffInv r.Quota (setup r now) := by
    rw [hsetup]
    exact ⟨rfl, ⟨0, rfl, by omega⟩, rfl, by simp [hw]⟩
  obtain ⟨hQ, ⟨m, hm, hmle⟩, hRefill, hReset⟩ :=
    windowOffInv_runOps r.Quota ops (setup r now) hinv0
  refine ⟨by rw [hsetup], by rw [hsetup]; simp [hw], ?_, hRefill, fun hn => ?_⟩
  · simp [stepOp, resetStep, hReset]
  · rw [hm] at hn
    injection hn with hn
    rw [← hn]
    exact hmle

/-- Witness for C7: a quota-2, rate-0 limiter (window 0), after a refill and
a throttle. -/
theorem claim_C7_window_zero_witness :
    (setup sampleW0 5).refillRunning = true ∧
    (setup sampleW0 5).resetRunning = false ∧
    stepOp (runOps (setup sampleW0 5) [Op.refillOp, Op.throttleOp 6])
      (Op.resetOp 7) = none ∧
    (runOps (setup sampleW0 5) [Op.refillOp, Op.throttleOp 6]).refillRunning
      = true ∧
    ((0 : Nat) : Int) ≤ sampleW0.Quota :=
  have h := claim_C7_window_zero sampleW0 5 7 [Op.refillOp, Op.throttleOp 6] 0
    (by decide) (by decide) (by decide)
  ⟨h.1, h.2.1, h.2.2.1, h.2.2.2.1, h.2.2.2.2 (by decide)⟩

/-- C8: on an initialized limiter, `TokensLeft` returns exactly the current
bucket occupancy and leaves the limiter completely unchanged. -/
theorem claim_C8_tokensLeft_pure (r : RState) (now : Int) (n : Nat)
    (h : r.Tokens = some n) :
    TokensLeft r now = (n, r) := by
  simp [TokensLeft, setup_of_some r now n h, h]

/-- Witness for C8: the sample limiter holding two permits. -/
theorem claim_C8_tokensLeft_pure_witness :
    TokensLeft sampleInit 4 = (2, sampleInit) :=
  claim_C8_tokensLeft_pure sampleInit 4 2 rfl

/-- C9: setup allocates the bucket empty — immediately after the lazy setup
of a fresh limiter the occupancy is 0, so the first `Throttle` on a fresh
limiter blocks (no permit is available before the first refill), a refill
then adds a single permit, and only then does a `Throttle` complete. -/
theorem claim_C9_no_prefill (quota rate : Int) (name : String) (now t u : Int)
    (hq : 0 < quota) :
    (afterSetup quota rate name now).Tokens = some 0 ∧
    Throttle (NewRateLimiter quota rate name) t = none ∧
    refillStep (afterSetup quota rate name now) =
      some { afterSetup quota rate name now with Tokens := some 1 } ∧
    Throttle { afterSetup quota rate name now with Tokens := some 1 } u =
      some
        { afterSetup quota rate name now with
          Tokens := some 0
          TokensUsed := 1 } := by
  have he := afterSetup_eq quota rate name now
  have htok : (afterSetup quota rate name now).Tokens = some 0 := by
    rw [he]
  refine ⟨htok, ?_, ?_, ?_⟩
  · rw [Throttle]
    have hsu : setup (NewRateLimiter quota rate name) t =
        afterSetup quota rate name t := rfl
    rw [hsu, useToken_zero _ (by rw [afterSetup_eq])]
    rfl
  · have := refillStep_lt (afterSetup quota rate name now) 0
      (by rw [he]) htok (by rw [he]; simpa using hq)
    simpa using this
  · have h1 : ({ afterSetup quota rate name now with Tokens := some 1 }
        : RState).Tokens = some 1 := rfl
    rw [Throttle, setup_of_some _ u 1 h1, useToken_succ _ 0 h1]
    have hused : (afterSetup quota rate name now).TokensUsed = 0 := by
      rw [he]
    simp [hused]

/-- Witness for C9: quota 2, rate 3. -/
theorem claim_C9_no_prefill_witness :
    (afterSetup 2 3 "rl" 5).Tokens = some 0 ∧
    Throttle (NewRateLimiter 2 3 "rl") 6 = none ∧
    refillStep (afterSetup 2 3 "rl" 5) =
      some { afterSetup 2 3 "rl" 5 with Tokens := some 1 } ∧
    Throttle { afterSetup 2 3 "rl" 5 with Tokens := some 1 } 7 =
      some { afterSetup 2 3 "rl" 5 with Tokens := some 0, TokensUsed := 1 } :=
  claim_C9_no_prefill 2 3 "rl" 5 6 7 (by decide)

/-- C10: `TokensUsed` counts the `Throttle` calls completed since the last
window reset (each completed `Throttle` adds one, a reset firing zeroes it,
a refill and `setup` leave it alone) and is not bounded by the quota: on a
quota-1 limiter whose derived window is 0, two throttles with no intervening
reset leave `TokensUsed = 2`, making the reported remaining quota
`Quota - TokensUsed` negative. -/
theorem claim_C10_usage_counter (s s2 : RState) (t : Int) :
    (Throttle s t = some s2 → s2.TokensUsed = s.TokensUsed + 1) ∧
    (resetStep s t = some s2 → s2.TokensUsed = 0) ∧
    (refillStep s = some s2 → s2.TokensUsed = s.TokensUsed) ∧
    (setup s t).TokensUsed = s.TokensUsed ∧
    (NewRateLimiter 1 0 "rl").Window = 0 ∧
    (runOps (NewRateLimiter 1 0 "rl") overQuotaOps).TokensUsed = 2 ∧
    (runOps (NewRateLimiter 1 0 "rl") overQuotaOps).Quota -
      (runOps (NewRateLimiter 1 0 "rl") overQuotaOps).TokensUsed < 0 := by
  refine ⟨?_, ?_, ?_, setup_tokensUsed s t, by decide, by decide, by decide⟩
  · intro h
    rw [Throttle] at h
    cases hu : useToken (setup s t) with
    | none => rw [hu] at h; exact absurd h (by simp)
    | some r2 =>
      rw [hu, Option.map_some'] at h
      have h2 : s2 = { r2 with TokensUsed := r2.TokensUsed + 1 } := by
        injection h with h
        exact h.symm
      obtain ⟨n, hn, hr2⟩ := useToken_some (setup s t) r2 hu
      rw [h2, hr2]
      simp [setup_tokensUsed]
  · intro h
    rw [resetStep] at h
    by_cases hr : s.resetRunning = true
    · rw [if_pos hr] at h
      injection h with h
      rw [← h]
      exact reset_tokensUsed s t
    · rw [if_neg hr] at h
      exact absurd h (by simp)
  · intro h
    obtain ⟨n, hn, hlt, hr2⟩ := refillStep_some s s2 h
    rw [hr2]

/-- Witness for C10: the three counter equations at the sample limiter, and
the concrete over-quota run is already closed in the theorem itself. -/
theorem claim_C10_usage_counter_witness :
    ({ sampleInit with Tokens := some 1, TokensUsed := 2 } : RState).TokensUsed
        = sampleInit.TokensUsed + 1 ∧
    ({ sampleInit with
       Tokens := some 0
       TokensUsed := 0
       RateLimitStart := 4 } : RState).TokensUsed = 0 ∧
    ({ sampleInit with Tokens := some 3 } : RState).TokensUsed
        = sampleInit.TokensUsed :=
  ⟨(claim_C10_usage_counter sampleInit
      { sampleInit with Tokens := some 1, TokensUsed := 2 } 4).1 (by decide),
   (claim_C10_usage_counter sampleInit
      { sampleInit with
        Tokens := some 0
        TokensUsed := 0
        RateLimitStart := 4 } 4).2.1 (by decide),
   (claim_C10_usage_counter sampleInit
      { sampleInit with Tokens := some 3 } 4).2.2.1 (by decide)⟩

end Ratelimiter
